import Mathlib

/-!
Shallow embedding of `src/rolexhound.c`, a single-path inotify filesystem
watchdog.  The program reads packed `struct inotify_event` records from an
inotify queue into a 4096-byte buffer, walks the buffer with manual pointer
arithmetic, classifies each record's flag mask through a chain of independent
`if` statements that overwrite a message pointer, and forwards each classified
record to libnotify.  A signal handler removes the watch, closes the queue,
uninitialises libnotify and exits.

The embedding below models:
  * the exit-status constants (`#define EXT_*`, lines 29-35);
  * the inotify flag bits used by the program (from `sys/inotify.h`);
  * the flag-classification chain (lines 153-175) as `classify`;
  * the per-record notification step (lines 177-187) as `processRecord`;
  * the daemon loop (lines 132-189) as `runLoop`, driven by a list of read
    results, with the system calls it makes recorded in a trace;
  * the signal handler `sig_shutdown_handler` (lines 44-60) as its literal
    sequence of system calls, `sigShutdownHandlerCalls`;
  * the startup sequence of `main` (lines 83-107) as `mainStartup`;
  * the strtok-based display-name extraction (lines 117-129) as `strtokRuns`,
    `finalBasePath` and `displayName`;
  * the buffer-walking decode loop (lines 147-151) as `decodeAux`/`decode`
    over a byte memory `Nat → Nat` (total, so that the loop's reads beyond
    `readLength` are observable) together with the little-endian field loads
    of `struct inotify_event` (x86-64 Linux: 16-byte header `wd, mask,
    cookie, len`, then `len` bytes of name).
-/

namespace Rolexhound

/-! ## Exit statuses (lines 29-35) -/

def EXT_SUCCESS : Nat := 0
def EXT_ERR_TOO_FEW_ARGS : Nat := 1
def EXT_ERR_INIT_INOTIFY : Nat := 2
def EXT_ERR_ADD_WATCH : Nat := 3
def EXT_ERR_BASE_PATH_NULL : Nat := 4
def EXT_ERR_READ_INOTIFY : Nat := 5
def EXT_ERR_INIT_LIBNOTIFY : Nat := 6

/-! ## inotify flag bits (`sys/inotify.h`) -/

def IN_ACCESS : Nat := 0x001
def IN_MODIFY : Nat := 0x002
def IN_CLOSE_WRITE : Nat := 0x008
def IN_CREATE : Nat := 0x100
def IN_DELETE : Nat := 0x200
def IN_MOVE_SELF : Nat := 0x800

/-- The flag set the watch is registered with (lines 79-80). -/
def watchFlagSet : Nat :=
  IN_CREATE ||| IN_DELETE ||| IN_ACCESS ||| IN_CLOSE_WRITE ||| IN_MODIFY ||| IN_MOVE_SELF

/-- Test of `mask & flag` being nonzero, as in the `if` conditions. -/
def hasFlag (mask flag : Nat) : Bool := mask &&& flag != 0

/-! ## EventClassifier -/

/-- The user-facing category of one record; `Ignored` stands for
`notificationMessage` remaining NULL after the whole chain. -/
inductive EventCategory where
  | Created
  | Deleted
  | Accessed
  | WrittenAndClosed
  | Modified
  | MovedSelf
  | Ignored
deriving DecidableEq, Repr

/-- The chain of independent `if` statements of lines 153-175, translated
statement by statement: `notificationMessage` starts NULL (`Ignored`) and each
matching test OVERWRITES it, so the value that survives is the one written by
the LAST matching test in program order. -/
def classify (mask : Nat) : EventCategory :=
  let m0 := EventCategory.Ignored
  let m1 := if hasFlag mask IN_CREATE then EventCategory.Created else m0
  let m2 := if hasFlag mask IN_DELETE then EventCategory.Deleted else m1
  let m3 := if hasFlag mask IN_ACCESS then EventCategory.Accessed else m2
  let m4 := if hasFlag mask IN_CLOSE_WRITE then EventCategory.WrittenAndClosed else m3
  let m5 := if hasFlag mask IN_MODIFY then EventCategory.Modified else m4
  let m6 := if hasFlag mask IN_MOVE_SELF then EventCategory.MovedSelf else m5
  m6

/-- The message string each category's `if` body assigns, `none` for the
pointer staying NULL. -/
def categoryMessage : EventCategory → Option String
  | EventCategory.Created => some ("File created.\n")
  | EventCategory.Deleted => some ("File deleted.\n")
  | EventCategory.Accessed => some ("File accessed.\n")
  | EventCategory.WrittenAndClosed => some ("File written and closed.\n")
  | EventCategory.Modified => some ("File modified.\n")
  | EventCategory.MovedSelf => some ("File moved.\n")
  | EventCategory.Ignored => none

/-- A first-match-wins priority list: the effective priority of the
overwrite chain is the REVERSE of the textual order of the `if` statements. -/
def effectivePriority : List (Nat × EventCategory) :=
  [(IN_MOVE_SELF, EventCategory.MovedSelf),
   (IN_MODIFY, EventCategory.Modified),
   (IN_CLOSE_WRITE, EventCategory.WrittenAndClosed),
   (IN_ACCESS, EventCategory.Accessed),
   (IN_DELETE, EventCategory.Deleted),
   (IN_CREATE, EventCategory.Created)]

/-- First flag of the list that is set in `mask` wins; `Ignored` if none. -/
def firstMatch (mask : Nat) : List (Nat × EventCategory) → EventCategory
  | [] => EventCategory.Ignored
  | (flag, cat) :: rest =>
    if hasFlag mask flag then cat else firstMatch mask rest

/-! ## NotificationSink and the per-record step -/

/-- Outcome of one notification attempt by the external sink: a NULL handle
from `notify_notification_new`, a failed `notify_notification_show`, or a
delivered notification. -/
inductive SinkOutcome where
  | nullHandle
  | showFailed
  | shown
deriving DecidableEq, Repr

/-- What the loop body did for one record. -/
inductive RecordResult where
  | ignored
  | nullHandleReported
  | notified (title : List Char) (msg : String) (delivered : Bool)
deriving DecidableEq, Repr

/-- Body of the per-record loop (lines 150-187) for one record with flag set
`mask`: build the message by the overwrite chain; on NULL message `continue`
(`ignored`); otherwise call the sink with the startup-computed title
(`basePath`), reporting but not propagating a NULL handle or a failed show. -/
def processRecord (title : List Char) (sink : Nat → SinkOutcome) (i mask : Nat) :
    RecordResult :=
  match categoryMessage (classify mask) with
  | none => RecordResult.ignored
  | some msg =>
    match sink i with
    | SinkOutcome.nullHandle => RecordResult.nullHandleReported
    | SinkOutcome.showFailed => RecordResult.notified title msg false
    | SinkOutcome.shown => RecordResult.notified title msg true

/-- The record loop over the flag masks decoded from one read. -/
def processBuffer (title : List Char) (sink : Nat → SinkOutcome)
    (masks : List Nat) : List RecordResult :=
  masks.enum.map (fun p => processRecord title sink p.1 p.2)

/-! ## WatchSession loop and shutdown -/

/-- One blocking `read` of the event queue, as the loop sees it: a failure
(`read` returned -1) or a buffer whose decoded records carry these masks. -/
inductive ReadResult where
  | failure
  | buffer (masks : List Nat)

/-- Resource-affecting system calls the program can make. -/
inductive SysCall where
  | rmWatch
  | closeQueue
  | notifyUninit
  | exitProc (status : Nat)
deriving DecidableEq, Repr

/-- Trace of the daemon loop: per successful read the record results, plus
the resource system calls made on the way out. -/
structure LoopTrace where
  buffers : List (List RecordResult)
  calls : List SysCall
deriving DecidableEq, Repr

/-- The daemon main loop (lines 132-189) run over a prefix of read results.
On a failed read it prints an error and calls `exit(EXT_ERR_READ_INOTIFY)`
directly: no watch removal, queue close or libnotify uninit happens on this
path.  On a successful read every decoded record is processed and the loop
continues. -/
def runLoop (title : List Char) (sink : Nat → SinkOutcome) :
    List ReadResult → LoopTrace
  | [] => { buffers := [], calls := [] }
  | ReadResult.failure :: _ =>
    { buffers := [], calls := [SysCall.exitProc EXT_ERR_READ_INOTIFY] }
  | ReadResult.buffer masks :: rest =>
    let t := runLoop title sink rest
    { buffers := processBuffer title sink masks :: t.buffers, calls := t.calls }

/-- Counts of resource-releasing calls made so far, and the exit status once
`exit` runs. -/
structure ResourceCalls where
  rmWatchCalls : Nat
  closeCalls : Nat
  uninitCalls : Nat
  exitedWith : Option Nat
deriving DecidableEq, Repr

def initialResources : ResourceCalls :=
  { rmWatchCalls := 0, closeCalls := 0, uninitCalls := 0, exitedWith := none }

def applySysCall (s : ResourceCalls) : SysCall → ResourceCalls
  | SysCall.rmWatch => { s with rmWatchCalls := s.rmWatchCalls + 1 }
  | SysCall.closeQueue => { s with closeCalls := s.closeCalls + 1 }
  | SysCall.notifyUninit => { s with uninitCalls := s.uninitCalls + 1 }
  | SysCall.exitProc c => { s with exitedWith := some c }

def runCalls (calls : List SysCall) (s : ResourceCalls) : ResourceCalls :=
  calls.foldl applySysCall s

/-- The literal body of `sig_shutdown_handler` (lines 44-60): unconditionally
`inotify_rm_watch`, `close`, `notify_uninit`, `exit(EXT_SUCCESS)`.  There is
no guard flag: nothing in the handler records that teardown already ran. -/
def sigShutdownHandlerCalls : List SysCall :=
  [SysCall.rmWatch, SysCall.closeQueue, SysCall.notifyUninit,
   SysCall.exitProc EXT_SUCCESS]

/-- A first handler invocation that has performed its three release calls and
is then interrupted before `exit` completes by a second termination signal
(the three signals share the handler and only the one being handled is
blocked), followed by the second, full invocation. -/
def interruptedThenSecondShutdown : ResourceCalls :=
  runCalls sigShutdownHandlerCalls
    (runCalls (sigShutdownHandlerCalls.take 3) initialResources)

/-! ## Startup sequence of `main` (lines 83-107) -/

/-- The environment's answers to the three resource acquisitions: whether
`notify_init` succeeds, the `inotify_init` descriptor (`none` for -1) and the
`inotify_add_watch` descriptor (`none` for -1). -/
structure StartupEnv where
  notifyInitOk : Bool
  queueFd : Option Nat
  watchFd : Option Nat

/-- What startup did: error-stream lines, which acquisitions were attempted,
and the exit status if it exited early (`none` means it proceeds). -/
structure StartupTrace where
  stderrLines : List String
  notifyInitTried : Bool
  queueInitTried : Bool
  addWatchTried : Bool
  exitStatus : Option Nat
deriving DecidableEq, Repr

/-- The startup checks of `main` in program order, with `args` the positional
arguments after the program name (so `argc < 2` is exactly `args = []`):
usage check, `notify_init`, `inotify_init`, `inotify_add_watch`; each failure
prints one line and exits with its own status. -/
def mainStartup (env : StartupEnv) (args : List String) : StartupTrace :=
  match args with
  | [] =>
    { stderrLines := ["USAGE: rolexhound PATH"], notifyInitTried := false,
      queueInitTried := false, addWatchTried := false,
      exitStatus := some EXT_ERR_TOO_FEW_ARGS }
  | _ :: _ =>
    if !env.notifyInitOk then
      { stderrLines := ["Error initialising with libnotify!"],
        notifyInitTried := true, queueInitTried := false,
        addWatchTried := false, exitStatus := some EXT_ERR_INIT_LIBNOTIFY }
    else
      match env.queueFd with
      | none =>
        { stderrLines := ["Error initialising event queue!"],
          notifyInitTried := true, queueInitTried := true,
          addWatchTried := false, exitStatus := some EXT_ERR_INIT_INOTIFY }
      | some _ =>
        match env.watchFd with
        | none =>
          { stderrLines := ["Error adding file to inotify watch!"],
            notifyInitTried := true, queueInitTried := true,
            addWatchTried := true, exitStatus := some EXT_ERR_ADD_WATCH }
        | some _ =>
          { stderrLines := [], notifyInitTried := true, queueInitTried := true,
            addWatchTried := true, exitStatus := none }

/-! ## Display-name extraction (lines 115-129) -/

/-- The sequence of tokens `strtok(basePath, "/")` then `strtok(NULL, "/")`
yields: the maximal nonempty runs of non-separator characters.  `acc` holds
the (reversed) run being scanned. -/
def strtokRuns (cs : List Char) (acc : List Char) : List (List Char) :=
  match cs with
  | [] => if acc.isEmpty then [] else [acc.reverse]
  | c :: rest =>
    if c = '/' then
      if acc.isEmpty then strtokRuns rest []
      else acc.reverse :: strtokRuns rest []
    else strtokRuns rest (c :: acc)

/-- `basePath` after the tokenization loop of lines 120-124: it starts as the
heap copy of `argv[1]` (non-NULL, assuming the unchecked `malloc` succeeded)
and each iteration overwrites it with the token just returned; when `strtok`
finds no token at all the loop body never runs and the unmodified copy
survives. -/
def finalBasePath (path : List Char) : Option (List Char) :=
  (strtokRuns path []).foldl (fun _ tok => some tok) (some path)

/-- The NULL check of lines 126-129: `exit(EXT_ERR_BASE_PATH_NULL)` when
`basePath` ended NULL, otherwise fall through into the loop. -/
def basePathNullExit (path : List Char) : Option Nat :=
  match finalBasePath path with
  | none => some EXT_ERR_BASE_PATH_NULL
  | some _ => none

/-- The display name the loop actually uses as every notification title. -/
def displayName (path : List Char) : List Char :=
  (finalBasePath path).getD path

/-! ## EventDecoder (lines 66, 136, 147-151)

The read buffer is modelled as a total byte memory `mem : Nat → Nat` of which
the first `readLength` cells are the bytes `read` returned; the cells at and
beyond `readLength` exist (the stack around the 4096-byte array) but reading
them is exactly the out-of-bounds access the decode loop must not perform. -/

/-- Offset of each `struct inotify_event` header field and the header size on
x86-64 Linux: `int wd; uint32_t mask; uint32_t cookie; uint32_t len;` then
`len` name bytes; `sizeof(struct inotify_event) = 16`. -/
def headerSize : Nat := 16

def byteAt (mem : Nat → Nat) (i : Nat) : Nat := mem i % 256

/-- Little-endian 32-bit load, as the header field reads compile to. -/
def readU32 (mem : Nat → Nat) (i : Nat) : Nat :=
  byteAt mem i + 256 * byteAt mem (i + 1) + 65536 * byteAt mem (i + 2) +
    16777216 * byteAt mem (i + 3)

/-- One decoded record: the offset its header was read at, the four header
fields.  The name bytes are declared by `len` but never read by the program. -/
structure DecodedEvent where
  pos : Nat
  wd : Nat
  mask : Nat
  cookie : Nat
  len : Nat
deriving DecidableEq, Repr

/-- The `for` loop of lines 147-151: starting at offset 0, while the cursor
is below `readLength`, read the 16-byte header at the cursor (whether or not
16 bytes remain!) and advance by `headerSize + len`.  The only guard is
`buffPointer < buffer + readLength`.  `fuel` merely bounds the recursion;
since every step advances the cursor by at least `headerSize`, any fuel of at
least `readLength - pos` gives the loop's exact behavior
(`decodeAux_fuel_ample`). -/
def decodeAux (mem : Nat → Nat) (readLength : Nat) : Nat → Nat → List DecodedEvent
  | 0, _ => []
  | fuel + 1, pos =>
    if pos < readLength then
      let nameLen := readU32 mem (pos + 12)
      { pos := pos, wd := readU32 mem pos, mask := readU32 mem (pos + 4),
        cookie := readU32 mem (pos + 8), len := nameLen } ::
        decodeAux mem readLength fuel (pos + headerSize + nameLen)
    else []

/-- The decode loop over one read's buffer. -/
def decode (mem : Nat → Nat) (readLength : Nat) : List DecodedEvent :=
  decodeAux mem readLength readLength 0

/-- The loop read a header although fewer than `headerSize` bytes remained:
bytes at offsets `≥ readLength` were dereferenced. -/
def decodeOverReads (mem : Nat → Nat) (readLength : Nat) : Prop :=
  ∃ r ∈ decode mem readLength, readLength < r.pos + headerSize

/-- The all-zero byte memory (stack cleared), for concrete evaluations. -/
def zeroMem : Nat → Nat := fun _ => 0

/-! ## Well-formed wire encoding, for the round-trip property -/

/-- One well-formed on-wire event: header fields and the name bytes whose
count is the declared length. -/
structure WireEvent where
  wd : Nat
  mask : Nat
  cookie : Nat
  name : List Nat
deriving Repr

/-- Little-endian 4-byte encoding of a 32-bit value. -/
def u32le (n : Nat) : List Nat :=
  [n % 256, n / 256 % 256, n / 65536 % 256, n / 16777216 % 256]

def encodeEvent (e : WireEvent) : List Nat :=
  u32le e.wd ++ u32le e.mask ++ u32le e.cookie ++ u32le e.name.length ++ e.name

def encodeBuffer (es : List WireEvent) : List Nat :=
  (es.map encodeEvent).flatten

/-- A byte list as a memory: reads beyond the list see zeros. -/
def memOf (l : List Nat) (i : Nat) : Nat := l.getD i 0

/-! ## Small concrete artifacts used in proofs -/

/-- Whether the loop body reached the notification sink for this record. -/
def sinkAttempted : RecordResult → Bool
  | RecordResult.ignored => false
  | RecordResult.nullHandleReported => true
  | RecordResult.notified _ _ _ => true

/-- A sink that always delivers. -/
def sinkAllShown : Nat → SinkOutcome := fun _ => SinkOutcome.shown

/-- Two concrete well-formed wire events: an `IN_CREATE` record with a
two-byte name and an `IN_MODIFY` record with an empty name. -/
def wireSample : List WireEvent :=
  [{ wd := 1, mask := 256, cookie := 0, name := [46, 116] },
   { wd := 1, mask := 2, cookie := 0, name := [] }]

/-! # Theorems -/

/-- Helper: the overwrite chain equals first-match over the REVERSED priority
list, by case analysis on the six recognized bits. -/
theorem classify_eq_firstMatch (mask : Nat) :
    classify mask = firstMatch mask effectivePriority := by
  simp only [classify, firstMatch, effectivePriority]

/-- Claim C2, counterexample: a record with both the `IN_CREATE` and
`IN_MODIFY` bits set classifies as `Modified`, not `Created` as the claim
states — the `if` chain overwrites, so the LAST match survives. -/
theorem classify_create_and_modify_not_created :
    classify (IN_CREATE ||| IN_MODIFY) = EventCategory.Modified ∧
    (classify (IN_CREATE ||| IN_MODIFY) = EventCategory.Created) = False :=
  ⟨by decide, eq_false (by decide)⟩

/-- Claim C2 (amended): for every flag bitmask, classification returns the
LAST matching category in the written order Created, Deleted, Accessed,
WrittenAndClosed, Modified, MovedSelf — equivalently the first match of the
reversed priority list `effectivePriority` — and in particular a record with
both the Created and Modified bits set classifies as Modified. -/
theorem classify_last_match_wins :
    (∀ mask : Nat, classify mask = firstMatch mask effectivePriority) ∧
    classify (IN_CREATE ||| IN_MODIFY) = EventCategory.Modified :=
  ⟨classify_eq_firstMatch, by decide⟩

/-- Claim C6: classification is total (every mask maps to exactly one
category), returns `Ignored` exactly when none of the six recognized bits is
set, and an `Ignored` record makes the loop body `continue` without invoking
the sink. -/
theorem classify_total_ignored_silent :
    (∀ mask : Nat, ∃! c : EventCategory, classify mask = c) ∧
    (∀ mask : Nat, (classify mask = EventCategory.Ignored ↔
      (hasFlag mask IN_CREATE = false ∧ hasFlag mask IN_DELETE = false ∧
       hasFlag mask IN_ACCESS = false ∧ hasFlag mask IN_CLOSE_WRITE = false ∧
       hasFlag mask IN_MODIFY = false ∧ hasFlag mask IN_MOVE_SELF = false))) ∧
    (∀ (title : List Char) (sink : Nat → SinkOutcome) (i mask : Nat),
      classify mask = EventCategory.Ignored →
        processRecord title sink i mask = RecordResult.ignored) := by
  refine ⟨fun mask => ⟨classify mask, rfl, fun c hc => hc.symm⟩, fun mask => ?_,
    fun title sink i mask h => ?_⟩
  · simp only [classify]
    cases h1 : hasFlag mask IN_CREATE <;> cases h2 : hasFlag mask IN_DELETE <;>
      cases h3 : hasFlag mask IN_ACCESS <;> cases h4 : hasFlag mask IN_CLOSE_WRITE <;>
      cases h5 : hasFlag mask IN_MODIFY <;> cases h6 : hasFlag mask IN_MOVE_SELF <;>
      simp [h1, h2, h3, h4, h5, h6]
  · simp [processRecord, h, categoryMessage]

/-- Claim C4 (the code, evaluated at the failing schedule): a first handler
invocation interrupted after its three release calls, followed by a second
full invocation, removes the watch twice, closes the queue twice and uninits
libnotify twice — the handler has no guard, so teardown is not idempotent. -/
theorem second_signal_double_release :
    interruptedThenSecondShutdown.rmWatchCalls = 2 ∧
    interruptedThenSecondShutdown.closeCalls = 2 ∧
    interruptedThenSecondShutdown.uninitCalls = 2 ∧
    interruptedThenSecondShutdown.exitedWith = some EXT_SUCCESS := by decide

/-- Claim C5, counterexample: on a failed read the loop's only resource call
is `exit(EXT_ERR_READ_INOTIFY)` — the watch is not removed and the queue not
closed, so no cleanup precedes the exit. -/
theorem read_failure_no_release :
    (runLoop ['c'] sinkAllShown [ReadResult.failure]).calls
      = [SysCall.exitProc EXT_ERR_READ_INOTIFY] ∧
    (SysCall.rmWatch ∈ (runLoop ['c'] sinkAllShown [ReadResult.failure]).calls) = False ∧
    (SysCall.closeQueue ∈ (runLoop ['c'] sinkAllShown [ReadResult.failure]).calls) = False :=
  ⟨by decide, eq_false (by decide), eq_false (by decide)⟩

/-- Claim C5 (amended): when the blocking read fails, the process immediately
exits with the distinct fatal read-error status `EXT_ERR_READ_INOTIFY` (5),
performing no cleanup: neither the watch registration nor the queue resource
is released on this path. -/
theorem read_failure_exit_without_cleanup (title : List Char)
    (sink : Nat → SinkOutcome) (rest : List ReadResult) :
    runLoop title sink (ReadResult.failure :: rest) =
      { buffers := [], calls := [SysCall.exitProc EXT_ERR_READ_INOTIFY] } := rfl

/-- Claim C9: an invocation with zero positional arguments prints the usage
line on the error stream and exits with the dedicated status
`EXT_ERR_TOO_FEW_ARGS` (1), before any of `notify_init`, `inotify_init` or
`inotify_add_watch` is attempted. -/
theorem zero_args_usage_exit (env : StartupEnv) (args : List String)
    (h : args.length < 1) :
    mainStartup env args =
      { stderrLines := ["USAGE: rolexhound PATH"], notifyInitTried := false,
        queueInitTried := false, addWatchTried := false,
        exitStatus := some EXT_ERR_TOO_FEW_ARGS } := by
  cases args with
  | nil => rfl
  | cons a l => simp at h

/-- Claim C9, witness: the theorem applied to a concrete environment and the
empty argument list. -/
theorem zero_args_usage_exit_witness :
    mainStartup { notifyInitOk := true, queueFd := some 3, watchFd := some 1 } [] =
      { stderrLines := ["USAGE: rolexhound PATH"], notifyInitTried := false,
        queueInitTried := false, addWatchTried := false,
        exitStatus := some EXT_ERR_TOO_FEW_ARGS } :=
  zero_args_usage_exit { notifyInitOk := true, queueFd := some 3, watchFd := some 1 }
    [] (by decide)

/-- Helper: whether the sink is reached for a record depends only on the
record's classification, never on what the sink returns. -/
theorem sinkAttempted_processRecord (title : List Char) (sink : Nat → SinkOutcome)
    (i mask : Nat) :
    sinkAttempted (processRecord title sink i mask)
      = (categoryMessage (classify mask)).isSome := by
  unfold processRecord
  cases categoryMessage (classify mask) with
  | none => rfl
  | some msg => cases sink i <;> rfl

/-- Helper: the record loop visits every record of the buffer. -/
theorem processBuffer_length (title : List Char) (sink : Nat → SinkOutcome)
    (masks : List Nat) :
    (processBuffer title sink masks).length = masks.length := by
  simp [processBuffer]

/-- Helper: which records reach the sink is the same for any two sinks. -/
theorem processBuffer_attempts_eq (title : List Char) (s1 s2 : Nat → SinkOutcome)
    (masks : List Nat) :
    (processBuffer title s1 masks).map sinkAttempted
      = (processBuffer title s2 masks).map sinkAttempted := by
  simp only [processBuffer, List.map_map]
  generalize masks.enum = l
  induction l with
  | nil => rfl
  | cons p l ih =>
    simp only [List.map_cons, Function.comp_apply, ih,
      sinkAttempted_processRecord]

/-- Helper: the loop trace's shape does not depend on the sink. -/
theorem runLoop_shape_eq (title : List Char) (s1 s2 : Nat → SinkOutcome)
    (reads : List ReadResult) :
    (runLoop title s1 reads).buffers.length = (runLoop title s2 reads).buffers.length ∧
    (runLoop title s1 reads).calls = (runLoop title s2 reads).calls := by
  induction reads with
  | nil => exact ⟨rfl, rfl⟩
  | cons r rest ih =>
    cases r with
    | failure => exact ⟨rfl, rfl⟩
    | buffer masks => simpa [runLoop] using ih

/-- Claim C8: a sink failure (a NULL notification handle or a failed show) is
reported but never aborts processing: every record of a buffer is processed
whatever the sink does, the set of records that reach the sink is identical
under any two sinks, and the loop handles the same number of subsequent
buffers and makes the same exit calls under any two sinks. -/
theorem sink_failure_never_aborts (title : List Char) (s1 s2 : Nat → SinkOutcome)
    (masks : List Nat) (reads : List ReadResult) :
    (processBuffer title s1 masks).length = masks.length ∧
    (processBuffer title s1 masks).map sinkAttempted
      = (processBuffer title s2 masks).map sinkAttempted ∧
    (runLoop title s1 reads).buffers.length = (runLoop title s2 reads).buffers.length ∧
    (runLoop title s1 reads).calls = (runLoop title s2 reads).calls :=
  ⟨processBuffer_length title s1 masks, processBuffer_attempts_eq title s1 s2 masks,
   (runLoop_shape_eq title s1 s2 reads).1, (runLoop_shape_eq title s1 s2 reads).2⟩

/-- Helper: on a separator-free string the tokenizer returns the pending run
followed by the rest as its single token (or nothing when both are empty). -/
theorem strtokRuns_no_sep (cs : List Char) :
    ∀ acc : List Char, '/' ∉ cs →
      strtokRuns cs acc =
        if (acc.reverse ++ cs).isEmpty then [] else [acc.reverse ++ cs] := by
  induction cs with
  | nil =>
    intro acc _
    cases acc <;> simp [strtokRuns]
  | cons c rest ih =>
    intro acc h
    have hc : ¬ c = '/' := fun e => h (e ▸ List.mem_cons_self c rest)
    have h' : '/' ∉ rest := fun hm => h (List.mem_cons_of_mem c hm)
    rw [strtokRuns, if_neg hc, ih (c :: acc) h']
    simp

/-- Helper: a path with no separator is its own display name. -/
theorem displayName_no_sep (path : List Char) (h : '/' ∉ path) :
    displayName path = path := by
  unfold displayName finalBasePath
  rw [strtokRuns_no_sep path [] h]
  cases path <;> simp

/-- Helper: a notified record always carries the title the loop was given. -/
theorem processRecord_notified_title (title : List Char) (sink : Nat → SinkOutcome)
    (i mask : Nat) (t : List Char) (msg : String) (d : Bool)
    (h : processRecord title sink i mask = RecordResult.notified t msg d) :
    t = title := by
  unfold processRecord at h
  split at h
  · exact absurd h (by simp)
  · split at h
    · exact absurd h (by simp)
    · injection h with ht hm hd
      exact ht.symm
    · injection h with ht hm hd
      exact ht.symm

/-- Helper: lifted to a whole buffer. -/
theorem processBuffer_notified_title (title : List Char) (sink : Nat → SinkOutcome)
    (masks : List Nat) (r : RecordResult) (hr : r ∈ processBuffer title sink masks)
    (t : List Char) (msg : String) (d : Bool)
    (he : r = RecordResult.notified t msg d) : t = title := by
  rcases List.mem_map.mp hr with ⟨p, _, hp⟩
  exact processRecord_notified_title title sink p.1 p.2 t msg d (hp.trans he)

/-- Helper: lifted to the whole loop trace. -/
theorem runLoop_notified_title (title : List Char) (sink : Nat → SinkOutcome)
    (reads : List ReadResult) (buf : List RecordResult)
    (hb : buf ∈ (runLoop title sink reads).buffers) (r : RecordResult) (hr : r ∈ buf)
    (t : List Char) (msg : String) (d : Bool)
    (he : r = RecordResult.notified t msg d) : t = title := by
  induction reads with
  | nil => simp [runLoop] at hb
  | cons rd rest ih =>
    cases rd with
    | failure => simp [runLoop] at hb
    | buffer masks =>
      rcases List.mem_cons.mp hb with hb' | hb'
      · exact processBuffer_notified_title title sink masks r (hb' ▸ hr) t msg d he
      · exact ih hb'

/-- Claim C7: the display name is the final path segment — `/a/b/c` gives
`c`, a separator-free path gives itself — and it is computed once before the
loop and is the title of every notification the loop emits. -/
theorem display_name_last_segment :
    displayName ['/', 'a', '/', 'b', '/', 'c'] = ['c'] ∧
    displayName ['c'] = ['c'] ∧
    (∀ path : List Char, '/' ∉ path → displayName path = path) ∧
    (∀ (path : List Char) (sink : Nat → SinkOutcome) (reads : List ReadResult)
       (buf : List RecordResult) (r : RecordResult) (t : List Char) (msg : String)
       (d : Bool),
        buf ∈ (runLoop (displayName path) sink reads).buffers → r ∈ buf →
          r = RecordResult.notified t msg d → t = displayName path) :=
  ⟨by decide, by decide, displayName_no_sep,
   fun path sink reads buf r t msg d hb hr he =>
     runLoop_notified_title (displayName path) sink reads buf hb r hr t msg d he⟩

/-- Helper: a fold that only ever overwrites with `some` keeps a `some`. -/
theorem foldl_overwrite_isSome (l : List (List Char)) :
    ∀ i : Option (List Char), i.isSome = true →
      (l.foldl (fun _ tok => some tok) i).isSome = true := by
  induction l with
  | nil => exact fun i h => h
  | cons a l ih => exact fun i _ => ih (some a) rfl

/-- Claim C10: after the tokenization loop the display name is never NULL —
it is the heap copy of the path or the last token — so the
`EXT_ERR_BASE_PATH_NULL` branch is unreachable, and a path of separators
only, such as "/", proceeds into the loop with the unmodified path. -/
theorem base_path_never_null :
    (∀ path : List Char, (finalBasePath path).isSome = true) ∧
    (∀ path : List Char, basePathNullExit path = none) ∧
    finalBasePath ['/'] = some ['/'] := by
  have h1 : ∀ path : List Char, (finalBasePath path).isSome = true :=
    fun path => foldl_overwrite_isSome (strtokRuns path []) (some path) rfl
  refine ⟨h1, fun path => ?_, by decide⟩
  have := h1 path
  unfold basePathNullExit
  cases hf : finalBasePath path with
  | none => rw [hf] at this; simp at this
  | some t => rfl

/-- Helper: once the cursor has reached the end of the read, the loop yields
nothing, whatever the fuel. -/
theorem decodeAux_at_end (mem : Nat → Nat) (readLength f pos : Nat)
    (h : ¬ pos < readLength) : decodeAux mem readLength f pos = [] := by
  cases f with
  | zero => rfl
  | succ f => simp [decodeAux, h]

/-- Helper: the fuel argument of `decodeAux` is immaterial once it is at
least `readLength - pos`, because every iteration advances the cursor by at
least `headerSize`; so `decode` (fuel `readLength`) is the exact behavior of
the unbounded `for` loop. -/
theorem decodeAux_fuel_ample (mem : Nat → Nat) (readLength : Nat) :
    ∀ f g pos : Nat, readLength - pos ≤ f → readLength - pos ≤ g →
      decodeAux mem readLength f pos = decodeAux mem readLength g pos := by
  intro f
  induction f with
  | zero =>
    intro g pos hf _
    rw [decodeAux_at_end mem readLength 0 pos (by omega),
      decodeAux_at_end mem readLength g pos (by omega)]
  | succ f ih =>
    intro g pos hf hg
    by_cases hpos : pos < readLength
    · have hs : headerSize = 16 := rfl
      cases g with
      | zero => omega
      | succ g =>
        simp only [decodeAux, if_pos hpos]
        rw [ih g (pos + headerSize + readU32 mem (pos + 12)) (by omega) (by omega)]
    · rw [decodeAux_at_end mem readLength (f + 1) pos hpos,
        decodeAux_at_end mem readLength g pos hpos]

/-- Claim C1 (the code, evaluated at a failing input): for a 5-byte read over
cleared memory — fewer bytes than the 16-byte header — the loop does not fail
with any truncation error (its result type has no error case at all): it
dereferences the header past the end of the buffer (`decodeOverReads`) and
yields a record for the truncated tail. -/
theorem truncated_buffer_overread :
    (decode zeroMem 5).length = 1 ∧ decodeOverReads zeroMem 5 := by
  refine ⟨by decide, ?_⟩
  unfold decodeOverReads
  decide

/-- Helper: length of one encoded event. -/
theorem encodeEvent_length (e : WireEvent) :
    (encodeEvent e).length = headerSize + e.name.length := by
  simp [encodeEvent, u32le, headerSize]
  omega

/-- Helper: the buffer of a cons. -/
theorem encodeBuffer_cons (e : WireEvent) (es : List WireEvent) :
    encodeBuffer (e :: es) = encodeEvent e ++ encodeBuffer es := by
  simp [encodeBuffer]

/-- Helper: reading an offset past a prefix lands in the suffix. -/
theorem getD_append_len (pre l : List Nat) (k : Nat) :
    (pre ++ l).getD (pre.length + k) 0 = l.getD k 0 := by
  induction pre with
  | nil => simp
  | cons a pre ih =>
    have hk : (a :: pre).length + k = (pre.length + k) + 1 := by
      simp [List.length_cons]; omega
    simp only [List.cons_append, hk, List.getD_cons_succ, ih]

/-- Helper: a little-endian 32-bit load over an encoded 32-bit value placed
right after a prefix reads that value back, reduced mod 2^32. -/
theorem readU32_at_offset (pre : List Nat) (n : Nat) (post : List Nat) :
    readU32 (memOf (pre ++ (u32le n ++ post))) pre.length = n % 4294967296 := by
  have h0 := getD_append_len pre (u32le n ++ post) 0
  have h1 := getD_append_len pre (u32le n ++ post) 1
  have h2 := getD_append_len pre (u32le n ++ post) 2
  have h3 := getD_append_len pre (u32le n ++ post) 3
  simp only [Nat.add_zero] at h0
  simp only [readU32, byteAt, memOf]
  rw [h0, h1, h2, h3]
  simp only [u32le, List.cons_append, List.getD_cons_zero, List.getD_cons_succ]
  omega

/-- Helper: over a buffer that is a well-formed encoding placed after an
arbitrary prefix, the loop started at the prefix's end with ample fuel yields
exactly one record per encoded event, the consumed byte counts sum to exactly
the encoded length, and every record's header and declared name fit inside
the buffer. -/
theorem decodeAux_encodeBuffer (es : List WireEvent) :
    ∀ (pre : List Nat) (f : Nat),
      (∀ e ∈ es, e.name.length < 4294967296) →
      (pre ++ encodeBuffer es).length - pre.length ≤ f →
      (decodeAux (memOf (pre ++ encodeBuffer es)) (pre ++ encodeBuffer es).length
          f pre.length).length = es.length ∧
      ((decodeAux (memOf (pre ++ encodeBuffer es)) (pre ++ encodeBuffer es).length
          f pre.length).map (fun r => headerSize + r.len)).sum
        = (encodeBuffer es).length ∧
      (∀ r ∈ decodeAux (memOf (pre ++ encodeBuffer es))
          (pre ++ encodeBuffer es).length f pre.length,
        r.pos + headerSize + r.len ≤ (pre ++ encodeBuffer es).length) := by
  induction es with
  | nil =>
    intro pre f _ _
    have hend : decodeAux (memOf (pre ++ encodeBuffer []))
        (pre ++ encodeBuffer []).length f pre.length = [] := by
      apply decodeAux_at_end
      simp [encodeBuffer]
    rw [hend]
    simp [encodeBuffer]
  | cons e rest ih =>
    intro pre f h hf
    have h16 : headerSize = 16 := rfl
    have hA : (encodeEvent e).length = headerSize + e.name.length :=
      encodeEvent_length e
    have hfull : pre ++ encodeBuffer (e :: rest)
        = (pre ++ encodeEvent e) ++ encodeBuffer rest := by
      rw [encodeBuffer_cons, List.append_assoc]
    have hL : (pre ++ encodeBuffer (e :: rest)).length
        = pre.length + (headerSize + e.name.length) + (encodeBuffer rest).length := by
      rw [hfull]
      simp [List.length_append, hA]
      omega
    have hpos : pre.length < (pre ++ encodeBuffer (e :: rest)).length := by omega
    have hshape : pre ++ encodeBuffer (e :: rest)
        = (pre ++ u32le e.wd ++ u32le e.mask ++ u32le e.cookie)
            ++ (u32le e.name.length ++ (e.name ++ encodeBuffer rest)) := by
      rw [encodeBuffer_cons]
      simp [encodeEvent, List.append_assoc]
    have hp12 : (pre ++ u32le e.wd ++ u32le e.mask ++ u32le e.cookie).length
        = pre.length + 12 := by
      simp [List.length_append, u32le]
    have hread : readU32 (memOf (pre ++ encodeBuffer (e :: rest))) (pre.length + 12)
        = e.name.length := by
      conv_lhs => rw [hshape, ← hp12]
      rw [readU32_at_offset]
      exact Nat.mod_eq_of_lt (h e (List.mem_cons_self e rest))
    obtain ⟨f', rfl⟩ : ∃ f', f = f' + 1 := by
      cases f with
      | zero => exact absurd hf (by omega)
      | succ f' => exact ⟨f', rfl⟩
    have hrest : ∀ e' ∈ rest, e'.name.length < 4294967296 :=
      fun e' he' => h e' (List.mem_cons_of_mem e he')
    have hplen : (pre ++ encodeEvent e).length
        = pre.length + headerSize + e.name.length := by
      simp [List.length_append, hA]
      omega
    have hfuel : ((pre ++ encodeEvent e) ++ encodeBuffer rest).length
        - (pre ++ encodeEvent e).length ≤ f' := by
      rw [← hfull, hplen]
      omega
    have ihh := ih (pre ++ encodeEvent e) f' hrest hfuel
    rw [← hfull, hplen] at ihh
    simp only [decodeAux, if_pos hpos, hread]
    refine ⟨by simp only [List.length_cons, ihh.1], ?_, ?_⟩
    · rw [List.map_cons, List.sum_cons, ihh.2.1, encodeBuffer_cons,
        List.length_append, hA]
    · intro r hr
      rcases List.mem_cons.mp hr with rfl | hr'
      · dsimp only
        omega
      · exact ihh.2.2 r hr'

/-- Claim C3: for every buffer that is the concatenation of K well-formed
records, the decode loop yields exactly K records, the cumulative consumed
length (header size plus declared name length, summed over the records)
equals the buffer length exactly, and no record reaches past the buffer. -/
theorem decode_wellformed_exact (es : List WireEvent)
    (h : ∀ e ∈ es, e.name.length < 4294967296) :
    (decode (memOf (encodeBuffer es)) (encodeBuffer es).length).length = es.length ∧
    ((decode (memOf (encodeBuffer es)) (encodeBuffer es).length).map
        (fun r => headerSize + r.len)).sum = (encodeBuffer es).length ∧
    (∀ r ∈ decode (memOf (encodeBuffer es)) (encodeBuffer es).length,
      r.pos + headerSize + r.len ≤ (encodeBuffer es).length) := by
  have := decodeAux_encodeBuffer es [] (encodeBuffer es).length h (by simp)
  simpa [decode] using this

/-- Claim C3, witness: the theorem applied to the concrete two-record buffer
`wireSample`. -/
theorem decode_wellformed_exact_witness :
    (decode (memOf (encodeBuffer wireSample)) (encodeBuffer wireSample).length).length
      = wireSample.length ∧
    ((decode (memOf (encodeBuffer wireSample)) (encodeBuffer wireSample).length).map
        (fun r => headerSize + r.len)).sum = (encodeBuffer wireSample).length ∧
    (∀ r ∈ decode (memOf (encodeBuffer wireSample)) (encodeBuffer wireSample).length,
      r.pos + headerSize + r.len ≤ (encodeBuffer wireSample).length) :=
  decode_wellformed_exact wireSample (by decide)

end Rolexhound
